import Mathlib

/-!
# A verification model of the alx-polly polling core

This file embeds the poll/vote server actions of the repository
(`src/lib/polling.ts`, the canonical duplicates in `src/unnamed/part_000`,
the `createPoll` action of `src/app/(auth)/actions.ts`, and the zod schema of
`src/unnamed/part_001`) as pure Lean functions over an explicit relational
store, and proves the specification's testable properties about them.

The store holds the three tables (`polls`, `poll_options`, `votes`) as lists of
rows.  Every operation is a function of the store (and of the authenticated
viewer, which the source obtains from the ambient Supabase session) returning
its result together with the possibly-updated store.  Fallible reads of the
underlying store are modelled by explicit boolean failure switches, one per
round trip of the source, so that the error-handling branches of the source are
reachable in the model.

Database-side code that is not part of the repository sources (the
`poll_option_counts` view, the `cast_vote` stored procedure, and the
row-level-security policy on `polls`) is modelled from the spec; each such
definition carries a doc comment beginning `Modelled from the spec:`.
-/

namespace Polly

/-- JavaScript `String.prototype.trim` (used by zod's `.trim()`):
removes whitespace from both ends of the string. -/
def trimJS (s : String) : String :=
  ⟨((s.data.dropWhile Char.isWhitespace).reverse.dropWhile Char.isWhitespace).reverse⟩

/-- Byte-wise comparison of characters, for the lexicographic string order. -/
def charLe (a b : Char) : Bool := a.val ≤ b.val

/-- Lexicographic order on character lists. -/
def lexLe : List Char → List Char → Bool
  | [], _ => true
  | _ :: _, [] => false
  | a :: as, b :: bs => if a = b then lexLe as bs else charLe a b

/-- Lexicographic order on strings (the order the store uses for `created_at`
timestamps in ISO-8601 form). -/
def strLe (a b : String) : Bool := lexLe a.data b.data

/-- A row of the `polls` table (the columns the embedded operations touch). -/
structure PollRow where
  id : String
  question : String
  title : String
  description : Option String
  created_at : String
  owner_id : String
deriving DecidableEq

/-- A row of the `poll_options` table. -/
structure OptionRow where
  id : String
  label : String
  poll_id : String
  idx : Nat
deriving DecidableEq

/-- A row of the `votes` table. -/
structure VoteRow where
  id : Nat
  poll_id : String
  option_id : String
  voter_uid : Option String
  anon_fingerprint : Option String
deriving DecidableEq

/-- The relational store backing the service: the three tables plus the
append-only surrogate-id sequence for votes. -/
structure Store where
  polls : List PollRow
  options : List OptionRow
  votes : List VoteRow
  nextVoteId : Nat
deriving DecidableEq

/-- A row of the `poll_option_counts` view, with the nullable column types the
generated `Database` type in `src/lib/types.ts` declares. -/
structure CountRow where
  poll_id : Option String
  option_id : Option String
  option_label : Option String
  vote_count : Option Int
deriving DecidableEq

/-- The number of votes referencing a given option. -/
def countVotesForOption (s : Store) (optionId : String) : Int :=
  ((s.votes.filter (fun v => v.option_id == optionId)).length : Int)

/-- The `poll_option_counts` row describing one option. -/
def countRowOf (s : Store) (o : OptionRow) : CountRow :=
  { poll_id := some o.poll_id, option_id := some o.id,
    option_label := some o.label, vote_count := some (countVotesForOption s o.id) }

/-- Modelled from the spec: the database view `poll_option_counts` is not part
of the repository sources.  Per the spec's aggregation algorithm
("enumerating the Option set first and left-joining vote counts") it exposes
one row per option whose `vote_count` is the number of votes referencing that
option (0 when there are none, never an omission). -/
def poll_option_counts (s : Store) : List CountRow :=
  s.options.map (countRowOf s)

/-- A JavaScript `Map<string, number>` as an association list; `get`. -/
def mapGet (m : List (String × Int)) (k : String) : Option Int :=
  match m.find? (fun e => e.1 == k) with
  | some e => some e.2
  | none => none

/-- A JavaScript `Map<string, number>` as an association list; `set` replaces
the value of an existing key in place (keeping insertion order) and appends
otherwise. -/
def mapSet : List (String × Int) → String → Int → List (String × Int)
  | [], k, v => [(k, v)]
  | e :: rest, k, v => if e.1 == k then (k, v) :: rest else e :: mapSet rest k v

/-- One step of the per-option map built in `getPollById`:
`if (option_id && vote_count !== null) voteCountsMap.set(option_id, vote_count)`
(an empty-string id is falsy in JavaScript and is skipped). -/
def buildStep (m : List (String × Int)) (r : CountRow) : List (String × Int) :=
  match r.option_id, r.vote_count with
  | some oid, some c => if oid == "" then m else mapSet m oid c
  | _, _ => m

/-- The per-option map built in `getPollById`. -/
def buildCountsMap (rows : List CountRow) : List (String × Int) :=
  rows.foldl buildStep []

/-- One step of the per-poll accumulating map built in `getPolls`:
`voteCountsMap.set(poll_id, (voteCountsMap.get(poll_id) || 0) + vote_count)`. -/
def accumStep (m : List (String × Int)) (r : CountRow) : List (String × Int) :=
  match r.poll_id, r.vote_count with
  | some pid, some c => if pid == "" then m else mapSet m pid ((mapGet m pid).getD 0 + c)
  | _, _ => m

/-- The per-poll accumulating map built in `getPolls`. -/
def accumCountsMap (rows : List CountRow) : List (String × Int) :=
  rows.foldl accumStep []

/-- Insert into a list ordered by `le` (the sorting primitive of the model). -/
def insertBy {α : Type} (le : α → α → Bool) (a : α) : List α → List α
  | [] => [a]
  | b :: bs => if le a b then a :: b :: bs else b :: insertBy le a bs

/-- Insertion sort by `le`; models the store's `order(...)` clauses. -/
def sortBy {α : Type} (le : α → α → Bool) : List α → List α
  | [] => []
  | a :: rest => insertBy le a (sortBy le rest)

/-- PostgREST `.single()`: the query succeeds exactly when it returned one row;
zero or several rows surface an error (which the callers turn into `null`). -/
def singleRow {α : Type} : List α → Option α
  | [a] => some a
  | _ => none

/-- One option of a poll as returned to the UI (`{ id, text, votes }`). -/
structure PollOptionView where
  id : String
  text : String
  votes : Int
deriving DecidableEq

/-- The poll-detail value returned by `getPollById` (`PollWithVoteData`). -/
structure PollWithVoteData where
  id : String
  question : String
  description : Option String
  created_at : String
  options : List PollOptionView
  totalVotes : Int
  hasVoted : Bool
  isOwner : Bool
deriving DecidableEq

/-- One entry of the dashboard list returned by `getPolls` (`FetchedPoll`). -/
structure FetchedPoll where
  id : String
  question : String
  created_at : String
  totalVotes : Int
deriving DecidableEq

/-- The `{ success, message }` value returned by the mutating server actions. -/
structure ActionResult where
  success : Bool
  message : String
deriving DecidableEq

/-- `getPollById` from `src/unnamed/part_000` (lines 333-469, the canonical
duplicate that computes `hasVoted`/`isOwner`).  The four switches model the
four store round trips failing: the poll `.single()` fetch, the
`maybeSingle()` existing-vote check (whose error is only logged, leaving
`hasVoted` false), the options fetch, and the `poll_option_counts` fetch. -/
def getPollById (s : Store) (pollFetchFail voteCheckFail optsFail countsFail : Bool)
    (viewer : Option String) (pollId : String) : Option PollWithVoteData :=
  if pollFetchFail then none else
  match singleRow (s.polls.filter (fun p => p.id == pollId)) with
  | none => none
  | some poll =>
    let hasVoted :=
      match viewer with
      | some uid =>
        if voteCheckFail then false
        else (singleRow (s.votes.filter
          (fun v => v.poll_id == pollId && v.voter_uid == some uid))).isSome
      | none => false
    let isOwner :=
      match viewer with
      | some uid => uid == poll.owner_id
      | none => false
    if optsFail then none else
    let optionsData := sortBy (fun a b => decide (a.idx ≤ b.idx))
      (s.options.filter (fun o => o.poll_id == pollId))
    if countsFail then
      some { id := poll.id, question := poll.question, description := poll.description,
             created_at := poll.created_at,
             options := optionsData.map (fun o => { id := o.id, text := o.label, votes := 0 }),
             totalVotes := 0, hasVoted := hasVoted, isOwner := isOwner }
    else
      let optionIds := optionsData.map (fun o => o.id)
      let rows := (poll_option_counts s).filter (fun r =>
        match r.option_id with
        | some oid => optionIds.contains oid
        | none => false)
      let m := buildCountsMap rows
      some { id := poll.id, question := poll.question, description := poll.description,
             created_at := poll.created_at,
             options := optionsData.map
               (fun o => { id := o.id, text := o.label, votes := (mapGet m o.id).getD 0 }),
             totalVotes := optionsData.foldl (fun acc o => acc + (mapGet m o.id).getD 0) 0,
             hasVoted := hasVoted, isOwner := isOwner }

/-- `getPolls` from `src/unnamed/part_000` (lines 240-311): the viewer's own
polls, most recent first, each with its aggregated `totalVotes` (0 for every
poll when the count fetch fails). -/
def getPolls (s : Store) (getUserFail pollsFail countsFail : Bool)
    (viewer : Option String) : List FetchedPoll :=
  if getUserFail then [] else
  match viewer with
  | none => []
  | some uid =>
    if pollsFail then [] else
    let pollsData := sortBy (fun a b => strLe b.created_at a.created_at)
      (s.polls.filter (fun p => p.owner_id == uid))
    if pollsData.isEmpty then [] else
    if countsFail then
      pollsData.map (fun p =>
        { id := p.id, question := p.question, created_at := p.created_at, totalVotes := 0 })
    else
      let pollIds := pollsData.map (fun p => p.id)
      let rows := (poll_option_counts s).filter (fun r =>
        match r.poll_id with
        | some pid => pollIds.contains pid
        | none => false)
      let m := accumCountsMap rows
      pollsData.map (fun p =>
        { id := p.id, question := p.question, created_at := p.created_at,
          totalVotes := (mapGet m p.id).getD 0 })

/-- zod `z.string().trim().min(lo).max(hi)`: trims, then bounds the length of
the trimmed text, returning the trimmed output on success. -/
def zodTrimmedString (lo hi : Nat) (s : String) : Option String :=
  if lo ≤ (trimJS s).length ∧ (trimJS s).length ≤ hi then some (trimJS s) else none

/-- zod element-wise array parsing: every element must parse. -/
def zodArrayParse {α β : Type} (f : α → Option β) : List α → Option (List β)
  | [] => some []
  | a :: as =>
    match f a, zodArrayParse f as with
    | some b, some bs => some (b :: bs)
    | _, _ => none

/-- zod `z.array(elem).min(lo).max(hi)`. -/
def zodArray {α β : Type} (lo hi : Nat) (f : α → Option β) (l : List α) : Option (List β) :=
  match zodArrayParse f l with
  | none => none
  | some parsed => if lo ≤ parsed.length ∧ parsed.length ≤ hi then some parsed else none

/-- The input of `createPoll` (`{ question, options: [{ text }] }`). -/
structure CreatePollInput where
  question : String
  options : List String
deriving DecidableEq

/-- `createPollSchema` from `src/unnamed/part_001`: question trimmed to 1-280
characters, 2-20 options each trimmed to 1-140 characters; `safeParse`
returns the trimmed data on success and `none` on a validation failure. -/
def createPollSchema (input : CreatePollInput) : Option CreatePollInput :=
  match zodTrimmedString 1 280 input.question,
        zodArray 2 20 (zodTrimmedString 1 140) input.options with
  | some q, some opts => some { question := q, options := opts }
  | _, _ => none

/-- The spec's validation constraints in the spec's own words: "requires
2 ≤ len(options) ≤ 20 and each option text 1-140 chars after trimming, and
question 1-280 chars after trimming". -/
def specValidCreatePoll (input : CreatePollInput) : Bool :=
  let q := trimJS input.question
  decide (1 ≤ q.length) && decide (q.length ≤ 280) &&
  decide (2 ≤ input.options.length) && decide (input.options.length ≤ 20) &&
  input.options.all
    (fun t => decide (1 ≤ (trimJS t).length) && decide ((trimJS t).length ≤ 140))

/-- The option rows `createPoll` inserts:
`options.map((option, index) => ({ label: option.text, poll_id, idx: index }))`,
with the store assigning the row ids (`idGen`). -/
def mkOptionRows (idGen : Nat → String) (pollId : String) : Nat → List String → List OptionRow
  | _, [] => []
  | i, t :: ts =>
    { id := idGen i, label := t, poll_id := pollId, idx := i } :: mkOptionRows idGen pollId (i + 1) ts

/-- The possible outcomes of `createPoll`. -/
inductive CreatePollOutcome
  | redirectLogin
  | validationError
  | pollInsertError
  | optionsInsertError
  | created (pollId : String)
deriving DecidableEq

/-- `createPoll` from `src/app/(auth)/actions.ts` (the duplicate consistent
with the `poll_options` insert type, which requires `idx`): requires a
session, validates with `createPollSchema`, inserts the poll row, then - in a
second, separate insert - the option rows.  `newPollId`/`createdAt`/`idGen`
stand for the store-generated row id, timestamp and option ids; the two
switches model the two inserts failing. -/
def createPoll (s : Store) (viewer : Option String)
    (pollInsertFail optionsInsertFail : Bool)
    (newPollId createdAt : String) (idGen : Nat → String)
    (input : CreatePollInput) : CreatePollOutcome × Store :=
  match viewer with
  | none => (.redirectLogin, s)
  | some uid =>
    match createPollSchema input with
    | none => (.validationError, s)
    | some parsed =>
      if pollInsertFail then (.pollInsertError, s) else
      let pollRow : PollRow :=
        { id := newPollId, question := parsed.question, title := parsed.question,
          description := none, created_at := createdAt, owner_id := uid }
      let s1 : Store := { s with polls := s.polls ++ [pollRow] }
      if optionsInsertFail then (.optionsInsertError, s1) else
      (.created newPollId,
       { s1 with options := s1.options ++ mkOptionRows idGen newPollId 0 parsed.options })

/-- Modelled from the spec: the row-level-security policy on `polls` (not in
the repository sources) permits a write to a row only when the authenticated
caller is the poll's owner; a blocked write silently affects zero rows. -/
def rlsOwner (viewer : Option String) (p : PollRow) : Bool :=
  viewer == some p.owner_id

/-- `updatePollQuestion` from `src/lib/polling.ts` (lines 281-306): updates
question/description of the matching row - through the owner-only RLS policy -
and reports success whenever the store call itself did not error, regardless
of how many rows were affected.  `newDescription` distinguishes the JavaScript
`undefined` (outer `none`: column omitted from the update) from `null`
(`some none`). -/
def updatePollQuestion (s : Store) (dbFail : Bool) (viewer : Option String)
    (pollId newQuestion : String) (newDescription : Option (Option String)) :
    ActionResult × Store :=
  if dbFail then ({ success := false, message := "Failed to update poll." }, s) else
  ({ success := true, message := "Poll updated successfully." },
   { s with polls := s.polls.map (fun p =>
       if p.id == pollId && rlsOwner viewer p then
         { p with question := newQuestion,
                  description := match newDescription with
                                 | some d => d
                                 | none => p.description }
       else p) })

/-- `deleteVote` from `src/lib/polling.ts` (lines 214-232; despite its name it
deletes a poll): deletes the matching row through the owner-only RLS policy,
with the store cascading the deletion to the poll's options and votes, and
reports success whenever the store call itself did not error. -/
def deleteVote (s : Store) (dbFail : Bool) (viewer : Option String) (pollId : String) :
    ActionResult × Store :=
  if dbFail then ({ success := false, message := "Failed to delete poll." }, s) else
  let deletedIds := (s.polls.filter (fun p => p.id == pollId && rlsOwner viewer p)).map
    (fun p => p.id)
  ({ success := true, message := "Poll deleted successfully." },
   { s with
     polls := s.polls.filter (fun p => !(p.id == pollId && rlsOwner viewer p)),
     options := s.options.filter (fun o => !(deletedIds.contains o.poll_id)),
     votes := s.votes.filter (fun v => !(deletedIds.contains v.poll_id)) })

/-- The dedup key of a vote row: the authenticated user id when present,
otherwise the anonymous fingerprint. -/
def rowVoterKey (v : VoteRow) : Option String :=
  match v.voter_uid with
  | some u => some u
  | none => v.anon_fingerprint

/-- The dedup key of a caller: the authenticated user id when present,
otherwise the supplied fingerprint. -/
def voterKey (authUid fp : Option String) : Option String :=
  match authUid with
  | some u => some u
  | none => fp

/-- The possible outcomes of the `cast_vote` stored procedure. -/
inductive CastVoteOutcome
  | voteCast
  | alreadyVoted
  | invalidOption
  | missingIdentity
deriving DecidableEq

/-- Modelled from the spec: the `cast_vote` stored procedure (declared in
`src/lib/types.ts` but defined database-side).  It validates that the option
belongs to the poll (`InvalidOption` otherwise), resolves the voter identity
(authenticated user id, else the fingerprint; at least one must be present),
and atomically inserts the vote under the `(poll_id, voter-identity)`
uniqueness constraint, surfacing `AlreadyVoted` on a violation. -/
def cast_vote (s : Store) (p_poll_id p_option_id : String)
    (authUid p_anon_fingerprint : Option String) : CastVoteOutcome × Store :=
  if (s.options.filter (fun o => o.id == p_option_id && o.poll_id == p_poll_id)).isEmpty then
    (.invalidOption, s)
  else
    match voterKey authUid p_anon_fingerprint with
    | none => (.missingIdentity, s)
    | some key =>
      if s.votes.any (fun v => v.poll_id == p_poll_id && rowVoterKey v == some key) then
        (.alreadyVoted, s)
      else
        (.voteCast,
         { s with
           votes := s.votes ++ [{ id := s.nextVoteId, poll_id := p_poll_id,
                                  option_id := p_option_id, voter_uid := authUid,
                                  anon_fingerprint := p_anon_fingerprint }],
           nextVoteId := s.nextVoteId + 1 })

/-- The message `castVote` reports for a failed `cast_vote` call
(`error.message` of the store error). -/
def castVoteErrorMessage : CastVoteOutcome → String
  | .voteCast => ""
  | .alreadyVoted => "AlreadyVoted"
  | .invalidOption => "InvalidOption"
  | .missingIdentity => "MissingIdentity"

/-- `castVote` from `src/lib/polling.ts` (lines 144-169): invokes the
`cast_vote` RPC with the poll and option ids (the procedure resolves the
authenticated user itself) and maps its outcome to `{ success, message }`. -/
def castVote (s : Store) (authUid : Option String) (pollId optionId : String) :
    ActionResult × Store :=
  match cast_vote s pollId optionId authUid none with
  | (.voteCast, s1) => ({ success := true, message := "Vote cast successfully!" }, s1)
  | (outcome, s1) => ({ success := false, message := castVoteErrorMessage outcome }, s1)

/-- The poll-level total of a detail view: the sum of its per-option counts. -/
def sumOptionVotes (opts : List PollOptionView) : Int :=
  (opts.map (fun o => o.votes)).sum

/-- The contribution of a list of view rows to the count of one poll. -/
def sumCountsFor : List CountRow → String → Int
  | [], _ => 0
  | r :: rs, k =>
    (match r.poll_id, r.vote_count with
     | some pid, some c => if pid = k then c else 0
     | _, _ => 0) + sumCountsFor rs k

/-! ## Helper lemmas -/

theorem perm_insertBy {α : Type} (le : α → α → Bool) (a : α) :
    ∀ l : List α, (insertBy le a l).Perm (a :: l) := by
  intro l
  induction l with
  | nil => simp [insertBy]
  | cons b bs ih =>
    simp only [insertBy]
    split
    · exact List.Perm.refl _
    · exact (ih.cons b).trans (List.Perm.swap a b bs)

theorem perm_sortBy {α : Type} (le : α → α → Bool) :
    ∀ l : List α, (sortBy le l).Perm l := by
  intro l
  induction l with
  | nil => simp [sortBy]
  | cons a rest ih =>
    simp only [sortBy]
    exact (perm_insertBy le a (sortBy le rest)).trans (ih.cons a)

theorem sortBy_eq_of_chain {α : Type} (le : α → α → Bool) :
    ∀ l : List α, l.Chain' (fun a b => le a b = true) → sortBy le l = l := by
  intro l
  induction l with
  | nil => intro _; rfl
  | cons a rest ih =>
    intro h
    have hrest : rest.Chain' (fun a b => le a b = true) := h.tail
    have hs : sortBy le (a :: rest) = insertBy le a rest := by
      simp only [sortBy, ih hrest]
    rw [hs]
    cases rest with
    | nil => rfl
    | cons b bs =>
      have hab : le a b = true := (List.chain'_cons.mp h).1
      simp [insertBy, hab]

theorem mapGet_mapSet_self (m : List (String × Int)) (k : String) (v : Int) :
    mapGet (mapSet m k v) k = some v := by
  induction m with
  | nil => simp [mapSet, mapGet, List.find?]
  | cons e rest ih =>
    by_cases he : e.1 == k
    · simp [mapSet, mapGet, he, List.find?]
    · simpa [mapSet, mapGet, he, List.find?] using ih

theorem mapGet_mapSet_ne (m : List (String × Int)) (k : String) (v : Int)
    (k' : String) (h : k' ≠ k) : mapGet (mapSet m k v) k' = mapGet m k' := by
  have hkk' : (k == k') = false := by
    simp only [beq_eq_false_iff_ne, ne_eq]
    exact fun hc => h hc.symm
  induction m with
  | nil => simp [mapSet, mapGet, List.find?, hkk']
  | cons e rest ih =>
    by_cases he : e.1 == k
    · have he1 : e.1 = k := by simpa using he
      simp [mapSet, mapGet, he, List.find?, hkk', he1]
    · by_cases he' : e.1 == k'
      · simp [mapSet, mapGet, he, he', List.find?]
      · simpa [mapSet, mapGet, he, he', List.find?] using ih

theorem mapGet_foldl_buildStep_of_forall_ne (k : String) :
    ∀ (rows : List CountRow) (m : List (String × Int)),
      (∀ r ∈ rows, r.option_id ≠ some k) →
      mapGet (rows.foldl buildStep m) k = mapGet m k := by
  intro rows
  induction rows with
  | nil => intro m _; rfl
  | cons r rs ih =>
    intro m h
    have hr : r.option_id ≠ some k := h r (List.mem_cons_self r rs)
    have hrs : ∀ r' ∈ rs, r'.option_id ≠ some k :=
      fun r' hr' => h r' (List.mem_cons_of_mem r hr')
    rw [List.foldl_cons, ih (buildStep m r) hrs]
    unfold buildStep
    match hoid : r.option_id, hc : r.vote_count with
    | none, _ => rfl
    | some oid, none => rfl
    | some oid, some c =>
      by_cases hne : oid == ""
      · simp [hne]
      · have : oid ≠ k := by
          intro hk
          exact hr (by rw [hoid, hk])
        simp only [hne, if_neg (by simpa using hne)]
        exact mapGet_mapSet_ne m oid c k (fun hk => this hk.symm)

theorem mapGet_foldl_buildStep_of_mem (s : Store) :
    ∀ (opts : List OptionRow) (m : List (String × Int)) (o : OptionRow),
      (opts.map (fun x => x.id)).Nodup → (∀ x ∈ opts, x.id ≠ "") → o ∈ opts →
      mapGet ((opts.map (countRowOf s)).foldl buildStep m) o.id =
        some (countVotesForOption s o.id) := by
  intro opts
  induction opts with
  | nil => intro m o _ _ ho; cases ho
  | cons a rest ih =>
    intro m o hnd hne ho
    have hnd' := hnd
    rw [List.map_cons, List.nodup_cons] at hnd'
    have hane : a.id ≠ "" := hne a (List.mem_cons_self a rest)
    have hstep : buildStep m (countRowOf s a) = mapSet m a.id (countVotesForOption s a.id) := by
      unfold buildStep countRowOf
      simp [beq_eq_false_iff_ne, hane]
    rw [List.map_cons, List.foldl_cons, hstep]
    rcases List.mem_cons.mp ho with rfl | ho'
    · have hnotin : ∀ r ∈ rest.map (countRowOf s), r.option_id ≠ some o.id := by
        intro r hr
        rcases List.mem_map.mp hr with ⟨x, hx, rfl⟩
        have : x.id ≠ o.id := by
          intro hc
          exact hnd'.1 (hc ▸ List.mem_map_of_mem (fun y => y.id) hx)
        simpa [countRowOf] using fun hc => this hc
      rw [mapGet_foldl_buildStep_of_forall_ne o.id (rest.map (countRowOf s)) _ hnotin]
      exact mapGet_mapSet_self m o.id (countVotesForOption s o.id)
    · exact ih _ o hnd'.2 (fun x hx => hne x (List.mem_cons_of_mem a hx)) ho'

theorem mapGet_foldl_buildStep_zero :
    ∀ (rows : List CountRow) (m : List (String × Int)),
      (∀ r ∈ rows, r.vote_count = some 0) →
      (∀ k, (mapGet m k).getD 0 = 0) →
      ∀ k, (mapGet (rows.foldl buildStep m) k).getD 0 = 0 := by
  intro rows
  induction rows with
  | nil => intro m _ hm k; exact hm k
  | cons r rs ih =>
    intro m h hm k
    have hr : r.vote_count = some 0 := h r (List.mem_cons_self r rs)
    have hrs : ∀ r' ∈ rs, r'.vote_count = some 0 :=
      fun r' hr' => h r' (List.mem_cons_of_mem r hr')
    rw [List.foldl_cons]
    refine ih (buildStep m r) hrs ?_ k
    intro k'
    unfold buildStep
    rw [hr]
    match hoid : r.option_id with
    | none => exact hm k'
    | some oid =>
      show (mapGet (if (oid == "") = true then m else mapSet m oid 0) k').getD 0 = 0
      by_cases hne : (oid == "") = true
      · rw [if_pos hne]
        exact hm k'
      · rw [if_neg hne]
        by_cases hk : k' = oid
        · rw [hk, mapGet_mapSet_self]
          rfl
        · rw [mapGet_mapSet_ne m oid 0 k' hk]
          exact hm k'

theorem sumCountsFor_cons (r : CountRow) (rs : List CountRow) (k : String) :
    sumCountsFor (r :: rs) k =
      (match r.poll_id, r.vote_count with
       | some pid, some c => if pid = k then c else 0
       | _, _ => 0) + sumCountsFor rs k := rfl

theorem mapGet_foldl_accumStep (k : String) (hk : k ≠ "") :
    ∀ (rows : List CountRow) (m : List (String × Int)),
      (mapGet (rows.foldl accumStep m) k).getD 0 = (mapGet m k).getD 0 + sumCountsFor rows k := by
  intro rows
  induction rows with
  | nil => intro m; simp [sumCountsFor]
  | cons r rs ih =>
    intro m
    rw [List.foldl_cons, ih (accumStep m r), sumCountsFor_cons]
    unfold accumStep
    match hoid : r.poll_id, hc : r.vote_count with
    | none, _ => simp
    | some pid, none => simp
    | some pid, some c =>
      show (mapGet (if (pid == "") = true then m else mapSet m pid ((mapGet m pid).getD 0 + c))
          k).getD 0 + sumCountsFor rs k =
        (mapGet m k).getD 0 + ((if pid = k then c else 0) + sumCountsFor rs k)
      by_cases hpe : pid = ""
      · have hpk : pid ≠ k := fun hc' => hk (hc' ▸ hpe)
        subst hpe
        simp [hpk]
      · rw [if_neg (show ¬((pid == "") = true) by simpa using hpe)]
        by_cases hpk : pid = k
        · subst hpk
          rw [mapGet_mapSet_self]
          simp only [Option.getD_some, if_pos rfl, reduceIte]
          ring
        · rw [mapGet_mapSet_ne m pid _ k (fun hc' => hpk hc'.symm)]
          simp [hpk]

theorem foldl_add_int {α : Type} (f : α → Int) :
    ∀ (l : List α) (a : Int), l.foldl (fun acc x => acc + f x) a = a + (l.map f).sum := by
  intro l
  induction l with
  | nil => intro a; simp
  | cons x xs ih =>
    intro a
    simp only [List.foldl_cons, List.map_cons, List.sum_cons, ih (a + f x)]
    ring

theorem sumCountsFor_map_countRowOf (s : Store) (k : String) :
    ∀ opts : List OptionRow,
      sumCountsFor (opts.map (countRowOf s)) k =
        ((opts.filter (fun o => o.poll_id == k)).map
          (fun o => countVotesForOption s o.id)).sum := by
  intro opts
  induction opts with
  | nil => simp [sumCountsFor]
  | cons o rest ih =>
    by_cases h : o.poll_id = k
    · simp [sumCountsFor, countRowOf, List.filter_cons, h, ih]
    · simp [sumCountsFor, countRowOf, List.filter_cons, h,
        show (o.poll_id == k) = false by simpa using h, ih]

theorem filter_beq_key_singleton {α : Type} (key : α → String) :
    ∀ (l : List α) (a : α), (l.map key).Nodup → a ∈ l →
      l.filter (fun x => key x == key a) = [a] := by
  intro l
  induction l with
  | nil => intro a _ ha; cases ha
  | cons x xs ih =>
    intro a hnd ha
    rw [List.map_cons, List.nodup_cons] at hnd
    rcases List.mem_cons.mp ha with rfl | ha'
    · have hxs : xs.filter (fun y => key y == key a) = [] := by
        refine List.filter_eq_nil_iff.mpr ?_
        intro y hy
        simp only [beq_eq_false_iff_ne, ne_eq, Bool.not_eq_true, beq_eq_false_iff_ne]
        intro hc
        exact hnd.1 (hc ▸ List.mem_map_of_mem key hy)
      simp [List.filter_cons, hxs]
    · have hx : (key x == key a) = false := by
        simp only [beq_eq_false_iff_ne, ne_eq]
        intro hc
        exact hnd.1 (hc ▸ List.mem_map_of_mem key ha')
      simp only [List.filter_cons, hx, if_false]
      exact ih a hnd.2 ha'

theorem find?_eq_some_of_unique {β : Type} (q : β → Bool) :
    ∀ (l : List β) (b : β), b ∈ l → q b = true → (∀ x ∈ l, q x = true → x = b) →
      l.find? q = some b := by
  intro l
  induction l with
  | nil => intro b hb; cases hb
  | cons x xs ih =>
    intro b hb hq huniq
    by_cases hx : q x
    · have hxb : x = b := huniq x (List.mem_cons_self x xs) hx
      subst hxb
      simp [List.find?, hx]
    · have hxb : x ≠ b := fun hc => hx (hc ▸ hq)
      have hb' : b ∈ xs := by
        rcases List.mem_cons.mp hb with rfl | h'
        · exact absurd rfl hxb
        · exact h'
      simp only [List.find?, Bool.not_eq_true] at hx ⊢
      rw [hx]
      exact ih b hb' hq (fun y hy hqy => huniq y (List.mem_cons_of_mem x hy) hqy)

/-! ## Concrete fixtures used by the closed theorems and witnesses -/

/-- A small store: one poll `p1` owned by `U1` with two options, no votes. -/
def demoStore : Store :=
  { polls := [{ id := "p1", question := "Lunch?", title := "Lunch?", description := none,
                created_at := "2024-01-01T00:00:00Z", owner_id := "U1" }],
    options := [{ id := "o1", label := "Pizza", poll_id := "p1", idx := 0 },
                { id := "o2", label := "Salad", poll_id := "p1", idx := 1 }],
    votes := [],
    nextVoteId := 0 }

/-! ## The claims -/

/-- C8: for every `pollId` that does not reference an existing poll,
`getPollById` returns the not-found result `none` rather than a poll value
(whatever the viewer and whichever store round trips fail). -/
theorem getPollById_not_found (s : Store)
    (pollFetchFail voteCheckFail optsFail countsFail : Bool)
    (viewer : Option String) (pollId : String)
    (h : ∀ p ∈ s.polls, p.id ≠ pollId) :
    getPollById s pollFetchFail voteCheckFail optsFail countsFail viewer pollId = none := by
  have hfilter : s.polls.filter (fun p => p.id == pollId) = [] :=
    List.filter_eq_nil_iff.mpr (fun p hp => by simpa using h p hp)
  cases pollFetchFail <;> simp [getPollById, hfilter, singleRow]

/-- Witness for C8 at a concrete store and a fresh poll id. -/
theorem getPollById_not_found_witness :
    (∀ p ∈ demoStore.polls, p.id ≠ "p2") ∧
    getPollById demoStore false false false false none "p2" = none :=
  ⟨by decide, getPollById_not_found demoStore false false false false none "p2" (by decide)⟩

/-- C9: for every existing poll, a detail request with no viewer identity
returns a summary with `hasVoted = false` and `isOwner = false`. -/
theorem getPollById_no_viewer_flags (s : Store) (voteCheckFail countsFail : Bool)
    (p : PollRow) (hnd : (s.polls.map (fun q => q.id)).Nodup) (hp : p ∈ s.polls) :
    ∃ d, getPollById s false voteCheckFail false countsFail none p.id = some d ∧
      d.hasVoted = false ∧ d.isOwner = false := by
  have hfilter : s.polls.filter (fun q => q.id == p.id) = [p] :=
    filter_beq_key_singleton (fun q : PollRow => q.id) s.polls p hnd hp
  unfold getPollById
  rw [hfilter]
  cases countsFail <;> exact ⟨_, rfl, rfl, rfl⟩

/-- Witness for C9 at the concrete store. -/
theorem getPollById_no_viewer_flags_witness :
    ((demoStore.polls.map (fun q => q.id)).Nodup ∧
      demoStore.polls.head? = some
        { id := "p1", question := "Lunch?", title := "Lunch?", description := none,
          created_at := "2024-01-01T00:00:00Z", owner_id := "U1" }) ∧
    ∃ d, getPollById demoStore false false false false none "p1" = some d ∧
      d.hasVoted = false ∧ d.isOwner = false :=
  ⟨⟨by decide, by decide⟩,
    getPollById_no_viewer_flags demoStore false false
      { id := "p1", question := "Lunch?", title := "Lunch?", description := none,
        created_at := "2024-01-01T00:00:00Z", owner_id := "U1" }
      (by decide) (by decide)⟩

/-- C10: when the vote-count read fails, the read operations still succeed with
every count zeroed: `getPollById` returns the poll with all of its options at
`votes = 0` and `totalVotes = 0` (exactly as for a poll with no votes), and
every poll `getPolls` returns carries `totalVotes = 0`. -/
theorem count_read_failure_zeroes (s : Store) (voteCheckFail : Bool)
    (viewer viewer' : Option String) (p : PollRow)
    (hnd : (s.polls.map (fun q => q.id)).Nodup) (hp : p ∈ s.polls) :
    (∃ d, getPollById s false voteCheckFail false true viewer p.id = some d ∧
       d.options.length = (s.options.filter (fun o => o.poll_id == p.id)).length ∧
       (∀ o ∈ d.options, o.votes = 0) ∧ d.totalVotes = 0) ∧
    (∀ e ∈ getPolls s false false true viewer', e.totalVotes = 0) := by
  constructor
  · have hfilter : s.polls.filter (fun q => q.id == p.id) = [p] :=
      filter_beq_key_singleton (fun q : PollRow => q.id) s.polls p hnd hp
    unfold getPollById
    rw [hfilter]
    refine ⟨_, rfl, ?_, ?_, rfl⟩
    · rw [List.length_map]
      exact (perm_sortBy _ _).length_eq
    · intro o ho
      rcases List.mem_map.mp ho with ⟨x, _, rfl⟩
      rfl
  · intro e he
    cases viewer' with
    | none => cases he
    | some uid =>
      unfold getPolls at he
      dsimp only at he
      by_cases hemp : (sortBy (fun a b => strLe b.created_at a.created_at)
          (s.polls.filter (fun q => q.owner_id == uid))).isEmpty = true
      · rw [if_pos hemp] at he
        cases he
      · rw [if_neg hemp] at he
        rcases List.mem_map.mp he with ⟨x, _, rfl⟩
        rfl

/-- Witness for C10 at the concrete store. -/
theorem count_read_failure_zeroes_witness :
    ((demoStore.polls.map (fun q => q.id)).Nodup ∧
      demoStore.polls.head? = some
        { id := "p1", question := "Lunch?", title := "Lunch?", description := none,
          created_at := "2024-01-01T00:00:00Z", owner_id := "U1" }) ∧
    ((∃ d, getPollById demoStore false false false true none "p1" = some d ∧
        d.options.length = (demoStore.options.filter (fun o => o.poll_id == "p1")).length ∧
        (∀ o ∈ d.options, o.votes = 0) ∧ d.totalVotes = 0) ∧
     (∀ e ∈ getPolls demoStore false false true (some "U1"), e.totalVotes = 0)) :=
  ⟨⟨by decide, by decide⟩,
    count_read_failure_zeroes demoStore false none (some "U1")
      { id := "p1", question := "Lunch?", title := "Lunch?", description := none,
        created_at := "2024-01-01T00:00:00Z", owner_id := "U1" }
      (by decide) (by decide)⟩

/-- C2, evaluated at a failing input: when the option insert fails after the
poll insert succeeded, `createPoll` reports the option failure but leaves the
freshly inserted poll row in the store with no options - the partial
poll-without-options state the spec's single-transaction requirement rules
out - and that option-less poll is observable through `getPollById`. -/
theorem createPoll_options_failure_leaves_poll_row :
    (createPoll demoStore (some "U1") false true "p9" "t1" (fun n => "o9" ++ toString n)
        { question := "Lunch?", options := ["Pizza", "Salad"] }).1 =
      CreatePollOutcome.optionsInsertError ∧
    (createPoll demoStore (some "U1") false true "p9" "t1" (fun n => "o9" ++ toString n)
        { question := "Lunch?", options := ["Pizza", "Salad"] }).2.polls =
      demoStore.polls ++
        [{ id := "p9", question := "Lunch?", title := "Lunch?", description := none,
           created_at := "t1", owner_id := "U1" }] ∧
    (createPoll demoStore (some "U1") false true "p9" "t1" (fun n => "o9" ++ toString n)
        { question := "Lunch?", options := ["Pizza", "Salad"] }).2.options =
      demoStore.options ∧
    getPollById (createPoll demoStore (some "U1") false true "p9" "t1"
        (fun n => "o9" ++ toString n)
        { question := "Lunch?", options := ["Pizza", "Salad"] }).2
        false false false false none "p9" =
      some { id := "p9", question := "Lunch?", description := none, created_at := "t1",
             options := [], totalVotes := 0, hasVoted := false, isOwner := false } := by
  decide

/-- C3, evaluated at a failing input: a non-owner's `updatePollQuestion` and
`deleteVote` leave the store unchanged (the owner-only policy blocks the
write) yet both report `success = true` with a success message - there is no
`Unauthorized` failure anywhere in these code paths. -/
theorem nonOwner_update_delete_report_success :
    updatePollQuestion demoStore false (some "U2") "p1" "Hacked?" none =
      ({ success := true, message := "Poll updated successfully." }, demoStore) ∧
    deleteVote demoStore false (some "U2") "p1" =
      ({ success := true, message := "Poll deleted successfully." }, demoStore) := by
  decide

/-- C1: one voter, one vote per poll.  If a `cast_vote` call for
`(pid, voter)` succeeds, then a second call for the same pair (with any valid
option of the poll) fails with `AlreadyVoted` and leaves the store untouched:
after both calls exactly one vote for the pair is recorded, where before the
first call there was none. -/
theorem cast_vote_second_call_already_voted (s : Store) (pid oid oid2 : String)
    (authUid fp : Option String) (key : String)
    (hkey : voterKey authUid fp = some key)
    (hopt2 : (s.options.filter (fun o => o.id == oid2 && o.poll_id == pid)).isEmpty = false)
    (h1 : (cast_vote s pid oid authUid fp).1 = CastVoteOutcome.voteCast) :
    (cast_vote (cast_vote s pid oid authUid fp).2 pid oid2 authUid fp).1 =
      CastVoteOutcome.alreadyVoted ∧
    (cast_vote (cast_vote s pid oid authUid fp).2 pid oid2 authUid fp).2 =
      (cast_vote s pid oid authUid fp).2 ∧
    ((cast_vote s pid oid authUid fp).2.votes.filter
       (fun v => v.poll_id == pid && rowVoterKey v == some key)).length = 1 ∧
    (s.votes.filter (fun v => v.poll_id == pid && rowVoterKey v == some key)).length = 0 := by
  unfold cast_vote at h1
  by_cases he : (s.options.filter (fun o => o.id == oid && o.poll_id == pid)).isEmpty = true
  · rw [if_pos he] at h1
    simp at h1
  · rw [if_neg he, hkey] at h1
    dsimp only at h1
    by_cases hany :
        (s.votes.any (fun v => v.poll_id == pid && rowVoterKey v == some key)) = true
    · rw [if_pos hany] at h1
      simp at h1
    · have hnew : rowVoterKey
          { id := s.nextVoteId, poll_id := pid, option_id := oid,
            voter_uid := authUid, anon_fingerprint := fp } = some key := hkey
      have hs1 : (cast_vote s pid oid authUid fp).2 =
          { s with
            votes := s.votes ++ [{ id := s.nextVoteId, poll_id := pid, option_id := oid,
                                   voter_uid := authUid, anon_fingerprint := fp }],
            nextVoteId := s.nextVoteId + 1 } := by
        unfold cast_vote
        rw [if_neg he, hkey]
        dsimp only
        rw [if_neg hany]
      have hfil : s.votes.filter (fun v => v.poll_id == pid && rowVoterKey v == some key) = [] := by
        refine List.filter_eq_nil_iff.mpr ?_
        intro v hv hpv
        exact hany (List.any_eq_true.mpr ⟨v, hv, hpv⟩)
      refine ⟨?_, ?_, ?_, ?_⟩
      · rw [hs1]
        unfold cast_vote
        dsimp only
        rw [if_neg (by simpa using hopt2), hkey]
        dsimp only
        rw [if_pos (by
          rw [List.any_append]
          simp [hnew])]
      · rw [hs1]
        unfold cast_vote
        dsimp only
        rw [if_neg (by simpa using hopt2), hkey]
        dsimp only
        rw [if_pos (by
          rw [List.any_append]
          simp [hnew])]
      · rw [hs1]
        dsimp only
        rw [List.filter_append, hfil]
        simp [hnew]
      · rw [hfil]
        rfl

/-- Witness for C1: a concrete double vote by the anonymous voter `V1`. -/
theorem cast_vote_second_call_already_voted_witness :
    (voterKey none (some "V1") = some "V1") ∧
    ((demoStore.options.filter (fun o => o.id == "o2" && o.poll_id == "p1")).isEmpty = false) ∧
    ((cast_vote demoStore "p1" "o1" none (some "V1")).1 = CastVoteOutcome.voteCast) ∧
    ((cast_vote (cast_vote demoStore "p1" "o1" none (some "V1")).2 "p1" "o2" none
        (some "V1")).1 = CastVoteOutcome.alreadyVoted ∧
     (cast_vote (cast_vote demoStore "p1" "o1" none (some "V1")).2 "p1" "o2" none
        (some "V1")).2 = (cast_vote demoStore "p1" "o1" none (some "V1")).2 ∧
     ((cast_vote demoStore "p1" "o1" none (some "V1")).2.votes.filter
        (fun v => v.poll_id == "p1" && rowVoterKey v == some "V1")).length = 1 ∧
     (demoStore.votes.filter
        (fun v => v.poll_id == "p1" && rowVoterKey v == some "V1")).length = 0) :=
  ⟨by decide, by decide, by decide,
    cast_vote_second_call_already_voted demoStore "p1" "o1" "o2" none (some "V1") "V1"
      (by decide) (by decide) (by decide)⟩

theorem zodTrimmedString_isSome_iff (lo hi : Nat) (s : String) :
    (zodTrimmedString lo hi s).isSome = true ↔
      lo ≤ (trimJS s).length ∧ (trimJS s).length ≤ hi := by
  unfold zodTrimmedString
  split <;> simp_all

theorem zodTrimmedString_eq_some (lo hi : Nat) (s t : String)
    (h : zodTrimmedString lo hi s = some t) : t = trimJS s := by
  unfold zodTrimmedString at h
  split at h
  · cases h
    rfl
  · cases h

theorem zodArrayParse_isSome_iff {α β : Type} (f : α → Option β) :
    ∀ l : List α, (zodArrayParse f l).isSome = true ↔ ∀ a ∈ l, (f a).isSome = true := by
  intro l
  induction l with
  | nil => simp [zodArrayParse]
  | cons a as ih =>
    unfold zodArrayParse
    cases hfa : f a with
    | none => simp [hfa]
    | some b =>
      cases hrest : zodArrayParse f as with
      | none =>
        rw [hrest] at ih
        simp only [Option.isSome_none, Bool.false_eq_true, false_iff] at ih ⊢
        intro hall
        exact ih (fun x hx => hall x (List.mem_cons_of_mem a hx))
      | some bs =>
        rw [hrest] at ih
        simp only [Option.isSome_some, true_iff] at ih
        simp only [Option.isSome_some, true_iff]
        intro x hx
        rcases List.mem_cons.mp hx with rfl | hx'
        · simp [hfa]
        · exact ih x hx'

theorem zodArrayParse_length {α β : Type} (f : α → Option β) :
    ∀ (l : List α) (out : List β), zodArrayParse f l = some out → out.length = l.length := by
  intro l
  induction l with
  | nil =>
    intro out h
    cases h
    rfl
  | cons a as ih =>
    intro out h
    unfold zodArrayParse at h
    cases hfa : f a with
    | none => rw [hfa] at h; cases h
    | some b =>
      rw [hfa] at h
      cases hrest : zodArrayParse f as with
      | none => rw [hrest] at h; cases h
      | some bs =>
        rw [hrest] at h
        cases h
        simp [ih bs hrest]

theorem zodArrayParse_trim (lo hi : Nat) :
    ∀ (l : List String) (out : List String),
      zodArrayParse (zodTrimmedString lo hi) l = some out → out = l.map trimJS := by
  intro l
  induction l with
  | nil =>
    intro out h
    cases h
    rfl
  | cons a as ih =>
    intro out h
    unfold zodArrayParse at h
    cases hfa : zodTrimmedString lo hi a with
    | none => rw [hfa] at h; cases h
    | some b =>
      rw [hfa] at h
      cases hrest : zodArrayParse (zodTrimmedString lo hi) as with
      | none => rw [hrest] at h; cases h
      | some bs =>
        rw [hrest] at h
        cases h
        rw [List.map_cons, zodTrimmedString_eq_some lo hi a b hfa, ih bs hrest]

theorem zodArray_isSome_iff {α β : Type} (lo hi : Nat) (f : α → Option β) (l : List α) :
    (zodArray lo hi f l).isSome = true ↔
      (∀ a ∈ l, (f a).isSome = true) ∧ lo ≤ l.length ∧ l.length ≤ hi := by
  unfold zodArray
  cases hp : zodArrayParse f l with
  | none =>
    have hiff := zodArrayParse_isSome_iff f l
    rw [hp] at hiff
    simp only [Option.isSome_none, Bool.false_eq_true, false_iff] at hiff
    exact iff_of_false (by simp) (fun hc => hiff hc.1)
  | some parsed =>
    have hlen := zodArrayParse_length f l parsed hp
    have hiff := zodArrayParse_isSome_iff f l
    rw [hp] at hiff
    simp only [Option.isSome_some, true_iff] at hiff
    dsimp only
    split
    · rename_i hb
      exact iff_of_true rfl ⟨hiff, hlen ▸ hb.1, hlen ▸ hb.2⟩
    · rename_i hb
      exact iff_of_false (by simp) (fun hc => hb ⟨hlen ▸ hc.2.1, hlen ▸ hc.2.2⟩)

theorem createPollSchema_isSome_iff (input : CreatePollInput) :
    (createPollSchema input).isSome = true ↔ specValidCreatePoll input = true := by
  have hspec : specValidCreatePoll input = true ↔
      (1 ≤ (trimJS input.question).length ∧ (trimJS input.question).length ≤ 280) ∧
      (2 ≤ input.options.length ∧ input.options.length ≤ 20) ∧
      ∀ t ∈ input.options, 1 ≤ (trimJS t).length ∧ (trimJS t).length ≤ 140 := by
    simp [specValidCreatePoll, List.all_eq_true, and_assoc]
  rw [hspec]
  unfold createPollSchema
  cases hq : zodTrimmedString 1 280 input.question with
  | none =>
    have hqf := zodTrimmedString_isSome_iff 1 280 input.question
    rw [hq] at hqf
    simp only [Option.isSome_none, Bool.false_eq_true, false_iff] at hqf
    cases zodArray 2 20 (zodTrimmedString 1 140) input.options <;>
      exact iff_of_false (by simp) (fun hc => hqf hc.1)
  | some q =>
    have hqt := zodTrimmedString_isSome_iff 1 280 input.question
    rw [hq] at hqt
    simp only [Option.isSome_some, true_iff] at hqt
    cases ha : zodArray 2 20 (zodTrimmedString 1 140) input.options with
    | none =>
      have haf := zodArray_isSome_iff 2 20 (zodTrimmedString 1 140) input.options
      rw [ha] at haf
      simp only [Option.isSome_none, Bool.false_eq_true, false_iff] at haf
      exact iff_of_false (by simp)
        (fun hc => haf ⟨fun t ht => (zodTrimmedString_isSome_iff 1 140 t).mpr (hc.2.2 t ht),
                        hc.2.1.1, hc.2.1.2⟩)
    | some opts =>
      have hat := zodArray_isSome_iff 2 20 (zodTrimmedString 1 140) input.options
      rw [ha] at hat
      simp only [Option.isSome_some, true_iff] at hat
      exact iff_of_true rfl
        ⟨hqt, ⟨hat.2.1, hat.2.2⟩,
         fun t ht => (zodTrimmedString_isSome_iff 1 140 t).mp (hat.1 t ht)⟩

theorem createPollSchema_eq_some (input parsed : CreatePollInput)
    (h : createPollSchema input = some parsed) :
    parsed.question = trimJS input.question ∧ parsed.options = input.options.map trimJS := by
  unfold createPollSchema at h
  cases hq : zodTrimmedString 1 280 input.question with
  | none => rw [hq] at h; cases h
  | some q =>
    rw [hq] at h
    cases ha : zodArray 2 20 (zodTrimmedString 1 140) input.options with
    | none => rw [ha] at h; cases h
    | some opts =>
      rw [ha] at h
      cases h
      unfold zodArray at ha
      cases hp : zodArrayParse (zodTrimmedString 1 140) input.options with
      | none => rw [hp] at ha; cases ha
      | some parsed' =>
        rw [hp] at ha
        dsimp only at ha
        by_cases hb : 2 ≤ parsed'.length ∧ parsed'.length ≤ 20
        · rw [if_pos hb] at ha
          cases ha
          exact ⟨zodTrimmedString_eq_some 1 280 input.question q hq,
                 zodArrayParse_trim 1 140 input.options opts hp⟩
        · rw [if_neg hb] at ha
          cases ha

/-- C7: with an authenticated caller, `createPoll` fails with a validation
error - writing nothing to the store - exactly when the input violates the
constraints (after trimming: question 1-280 characters, 2-20 options, every
option text 1-140 characters); every input meeting them passes validation. -/
theorem createPoll_validationError_iff (s : Store) (uid : String)
    (pollInsertFail optionsInsertFail : Bool) (newPollId createdAt : String)
    (idGen : Nat → String) (input : CreatePollInput) :
    ((createPoll s (some uid) pollInsertFail optionsInsertFail newPollId createdAt idGen
        input).1 = CreatePollOutcome.validationError ∧
     (createPoll s (some uid) pollInsertFail optionsInsertFail newPollId createdAt idGen
        input).2 = s) ↔
    specValidCreatePoll input = false := by
  unfold createPoll
  cases hs : createPollSchema input with
  | none =>
    have := createPollSchema_isSome_iff input
    rw [hs] at this
    simp only [Option.isSome_none, Bool.false_eq_true, false_iff] at this
    simp [Bool.not_eq_true] at this
    simpa using this
  | some parsed =>
    have := createPollSchema_isSome_iff input
    rw [hs] at this
    simp only [Option.isSome_some, true_iff] at this
    cases pollInsertFail <;> cases optionsInsertFail <;> simp [this]

/-- C5: a poll whose options have received no votes is returned complete:
every one of its options appears, each annotated with `votes = 0`, and
`totalVotes = 0` - options are never dropped for lack of votes. -/
theorem getPollById_zero_votes_complete (s : Store) (p : PollRow)
    (viewer : Option String) (voteCheckFail : Bool)
    (hnd : (s.polls.map (fun q => q.id)).Nodup) (hp : p ∈ s.polls)
    (hnov : ∀ v ∈ s.votes, ∀ o ∈ s.options, o.poll_id = p.id → v.option_id ≠ o.id) :
    ∃ d, getPollById s false voteCheckFail false false viewer p.id = some d ∧
      d.options.length = (s.options.filter (fun o => o.poll_id == p.id)).length ∧
      (∀ o ∈ d.options, o.votes = 0) ∧ d.totalVotes = 0 := by
  have hfilter : s.polls.filter (fun q => q.id == p.id) = [p] :=
    filter_beq_key_singleton (fun q : PollRow => q.id) s.polls p hnd hp
  have hrows0 : ∀ r ∈ (poll_option_counts s).filter (fun r =>
      match r.option_id with
      | some oid => ((sortBy (fun a b => decide (a.idx ≤ b.idx))
          (s.options.filter (fun o => o.poll_id == p.id))).map (fun o => o.id)).contains oid
      | none => false), r.vote_count = some 0 := by
    intro r hr
    have hrv := List.mem_filter.mp hr
    rcases List.mem_map.mp hrv.1 with ⟨o1, ho1, rfl⟩
    have hpass := hrv.2
    simp only [countRowOf] at hpass
    have ho1mem : o1.id ∈ (sortBy (fun a b => decide (a.idx ≤ b.idx))
        (s.options.filter (fun o => o.poll_id == p.id))).map (fun o => o.id) :=
      List.elem_iff.mp hpass
    rcases List.mem_map.mp ho1mem with ⟨o3, ho3, hid⟩
    have ho3' : o3 ∈ s.options.filter (fun o => o.poll_id == p.id) :=
      (perm_sortBy _ _).mem_iff.mp ho3
    have ho3f := List.mem_filter.mp ho3'
    have hcnt : s.votes.filter (fun v => v.option_id == o1.id) = [] := by
      refine List.filter_eq_nil_iff.mpr ?_
      intro v hv hbeq
      have hne := hnov v hv o3 ho3f.1 (by simpa using ho3f.2)
      have hveq : v.option_id = o1.id := by simpa using hbeq
      exact hne (hveq.trans hid.symm)
    simp only [countRowOf, countVotesForOption, hcnt]
    rfl
  unfold getPollById
  rw [hfilter]
  refine ⟨_, rfl, ?_, ?_, ?_⟩
  · rw [List.length_map]
    exact (perm_sortBy _ _).length_eq
  · intro o ho
    rcases List.mem_map.mp ho with ⟨x, _, rfl⟩
    exact mapGet_foldl_buildStep_zero _ [] hrows0 (fun _ => rfl) x.id
  · rw [foldl_add_int]
    rw [List.sum_eq_zero, zero_add]
    intro x hx
    rcases List.mem_map.mp hx with ⟨o, _, rfl⟩
    exact mapGet_foldl_buildStep_zero _ [] hrows0 (fun _ => rfl) o.id

/-- Witness for C5: the demo store has one poll with two options and no votes. -/
theorem getPollById_zero_votes_complete_witness :
    ((demoStore.polls.map (fun q => q.id)).Nodup ∧
     (∀ v ∈ demoStore.votes, ∀ o ∈ demoStore.options, o.poll_id = "p1" → v.option_id ≠ o.id) ∧
     demoStore.polls.head? = some
       { id := "p1", question := "Lunch?", title := "Lunch?", description := none,
         created_at := "2024-01-01T00:00:00Z", owner_id := "U1" }) ∧
    ∃ d, getPollById demoStore false false false false none "p1" = some d ∧
      d.options.length = (demoStore.options.filter (fun o => o.poll_id == "p1")).length ∧
      (∀ o ∈ d.options, o.votes = 0) ∧ d.totalVotes = 0 :=
  ⟨⟨by decide, by decide, by decide⟩,
    getPollById_zero_votes_complete demoStore
      { id := "p1", question := "Lunch?", title := "Lunch?", description := none,
        created_at := "2024-01-01T00:00:00Z", owner_id := "U1" }
      none false (by decide) (by decide) (by decide)⟩

theorem mkOptionRows_map_label (idGen : Nat → String) (pollId : String) :
    ∀ (ts : List String) (i : Nat),
      (mkOptionRows idGen pollId i ts).map (fun o => o.label) = ts := by
  intro ts
  induction ts with
  | nil => intro i; rfl
  | cons t rest ih =>
    intro i
    simp [mkOptionRows, ih (i + 1)]

theorem mkOptionRows_map_idx (idGen : Nat → String) (pollId : String) :
    ∀ (ts : List String) (i : Nat),
      (mkOptionRows idGen pollId i ts).map (fun o => o.idx) = List.range' i ts.length := by
  intro ts
  induction ts with
  | nil => intro i; rfl
  | cons t rest ih =>
    intro i
    simp [mkOptionRows, ih (i + 1), List.range']

theorem mkOptionRows_poll_id (idGen : Nat → String) (pollId : String) :
    ∀ (ts : List String) (i : Nat),
      ∀ r ∈ mkOptionRows idGen pollId i ts, r.poll_id = pollId := by
  intro ts
  induction ts with
  | nil => intro i r hr; cases hr
  | cons t rest ih =>
    intro i r hr
    rcases List.mem_cons.mp hr with rfl | hr2
    · rfl
    · exact ih (i + 1) r hr2

theorem mkOptionRows_idx_ge (idGen : Nat → String) (pollId : String) :
    ∀ (ts : List String) (i : Nat),
      ∀ r ∈ mkOptionRows idGen pollId i ts, i ≤ r.idx := by
  intro ts
  induction ts with
  | nil => intro i r hr; cases hr
  | cons t rest ih =>
    intro i r hr
    rcases List.mem_cons.mp hr with rfl | hr2
    · exact Nat.le_refl i
    · exact Nat.le_of_succ_le (ih (i + 1) r hr2)

theorem mkOptionRows_chain (idGen : Nat → String) (pollId : String) :
    ∀ (ts : List String) (i : Nat),
      (mkOptionRows idGen pollId i ts).Chain' (fun a b => decide (a.idx ≤ b.idx) = true) := by
  intro ts
  induction ts with
  | nil => intro i; simp [mkOptionRows]
  | cons t rest ih =>
    intro i
    unfold mkOptionRows
    refine List.chain'_cons'.mpr ⟨?_, ih (i + 1)⟩
    intro y hy
    have hmem := List.mem_of_mem_head? hy
    have hge := mkOptionRows_idx_ge idGen pollId rest (i + 1) y hmem
    simp only [decide_eq_true_eq]
    exact Nat.le_of_succ_le hge

/-- C6: `createPoll` stores the option rows with ordinal index equal to the
zero-based position in the input list, and `getPollById` returns the options
sorted by that index ascending, so the displayed order equals the
creation-time input order. -/
theorem createPoll_order_preserved (s : Store) (u : String) (input : CreatePollInput)
    (newPollId createdAt : String) (idGen : Nat → String)
    (hvalid : specValidCreatePoll input = true)
    (hfreshP : ∀ q ∈ s.polls, q.id ≠ newPollId)
    (hfreshO : ∀ o ∈ s.options, o.poll_id ≠ newPollId) :
    (createPoll s (some u) false false newPollId createdAt idGen input).1 =
      CreatePollOutcome.created newPollId ∧
    ((createPoll s (some u) false false newPollId createdAt idGen input).2.options.filter
        (fun o => o.poll_id == newPollId)).map (fun o => o.idx) =
      List.range (input.options.length) ∧
    ∃ d, getPollById (createPoll s (some u) false false newPollId createdAt idGen input).2
        false false false false none newPollId = some d ∧
      d.options.map (fun o => o.text) = input.options.map trimJS := by
  have hsome : (createPollSchema input).isSome = true :=
    (createPollSchema_isSome_iff input).mpr hvalid
  rcases Option.isSome_iff_exists.mp hsome with ⟨parsed, hps⟩
  have hpe := createPollSchema_eq_some input parsed hps
  have hs2 : (createPoll s (some u) false false newPollId createdAt idGen input).2 =
      { s with
        polls := s.polls ++
          [{ id := newPollId, question := parsed.question, title := parsed.question,
             description := none, created_at := createdAt, owner_id := u }],
        options := s.options ++ mkOptionRows idGen newPollId 0 parsed.options } := by
    unfold createPoll
    rw [hps]
    rfl
  have hout : (createPoll s (some u) false false newPollId createdAt idGen input).1 =
      CreatePollOutcome.created newPollId := by
    unfold createPoll
    rw [hps]
    rfl
  have hofilter : ((createPoll s (some u) false false newPollId createdAt idGen
      input).2.options.filter (fun o => o.poll_id == newPollId)) =
      mkOptionRows idGen newPollId 0 parsed.options := by
    rw [hs2]
    dsimp only
    rw [List.filter_append]
    have h1 : s.options.filter (fun o => o.poll_id == newPollId) = [] :=
      List.filter_eq_nil_iff.mpr (fun o ho => by simpa using hfreshO o ho)
    have h2 : (mkOptionRows idGen newPollId 0 parsed.options).filter
        (fun o => o.poll_id == newPollId) = mkOptionRows idGen newPollId 0 parsed.options := by
      refine List.filter_eq_self.mpr ?_
      intro r hr
      simpa using mkOptionRows_poll_id idGen newPollId parsed.options 0 r hr
    rw [h1, h2, List.nil_append]
  refine ⟨hout, ?_, ?_⟩
  · rw [hofilter, mkOptionRows_map_idx, List.range_eq_range', hpe.2, List.length_map]
  · have hpfilter : (createPoll s (some u) false false newPollId createdAt idGen
        input).2.polls.filter (fun q => q.id == newPollId) =
        [{ id := newPollId, question := parsed.question, title := parsed.question,
           description := none, created_at := createdAt, owner_id := u }] := by
      rw [hs2]
      dsimp only
      rw [List.filter_append]
      have h1 : s.polls.filter (fun q => q.id == newPollId) = [] :=
        List.filter_eq_nil_iff.mpr (fun q hq => by simpa using hfreshP q hq)
      rw [h1, List.nil_append]
      simp
    have hsorted : sortBy (fun a b => decide (a.idx ≤ b.idx))
        ((createPoll s (some u) false false newPollId createdAt idGen
          input).2.options.filter (fun o => o.poll_id == newPollId)) =
        mkOptionRows idGen newPollId 0 parsed.options := by
      rw [hofilter]
      exact sortBy_eq_of_chain _ _ (mkOptionRows_chain idGen newPollId parsed.options 0)
    unfold getPollById
    rw [hpfilter, hsorted]
    refine ⟨_, rfl, ?_⟩
    rw [List.map_map]
    have hcomp : ∀ g : OptionRow → PollOptionView,
        (∀ o, (g o).text = o.label) →
        (mkOptionRows idGen newPollId 0 parsed.options).map ((fun o => o.text) ∘ g) =
          (mkOptionRows idGen newPollId 0 parsed.options).map (fun o => o.label) := by
      intro g hg
      refine List.map_congr_left ?_
      intro o _
      exact hg o
    rw [hcomp _ (fun o => rfl), mkOptionRows_map_label, hpe.2]

theorem buildCountsMap_eq (rows : List CountRow) :
    buildCountsMap rows = rows.foldl buildStep [] := rfl

theorem accumCountsMap_eq (rows : List CountRow) :
    accumCountsMap rows = rows.foldl accumStep [] := rfl

/-- C4: for every existing poll, the poll-level total `getPollById` reports
equals the sum of its per-option vote counts, and this total equals the
`totalVotes` that `getPolls` reports for the same poll in the owner's
dashboard list. -/
theorem poll_total_consistency (s : Store) (p : PollRow) (u : String)
    (viewer : Option String) (voteCheckFail : Bool)
    (hp : p ∈ s.polls)
    (howner : p.owner_id = u)
    (hpid : p.id ≠ "")
    (hndp : (s.polls.map (fun q => q.id)).Nodup)
    (hndo : (s.options.map (fun o => o.id)).Nodup)
    (hone : ∀ o ∈ s.options, o.id ≠ "") :
    ∃ d e, getPollById s false voteCheckFail false false viewer p.id = some d ∧
      (getPolls s false false false (some u)).find? (fun x => x.id == p.id) = some e ∧
      sumOptionVotes d.options = d.totalVotes ∧
      d.totalVotes = e.totalVotes := by
  have hfilterP : s.polls.filter (fun q => q.id == p.id) = [p] :=
    filter_beq_key_singleton (fun q : PollRow => q.id) s.polls p hndp hp
  have hsub : List.Sublist ((s.options.filter (fun o => o.poll_id == p.id)).map (fun o => o.id))
      (s.options.map (fun o => o.id)) :=
    (List.filter_sublist s.options).map (fun o => o.id)
  have hndo1 : ((s.options.filter (fun o => o.poll_id == p.id)).map (fun o => o.id)).Nodup :=
    List.Sublist.nodup hsub hndo
  have hone1 : ∀ o ∈ s.options.filter (fun o => o.poll_id == p.id), o.id ≠ "" :=
    fun o ho => hone o (List.mem_filter.mp ho).1
  have hiff1 : ∀ o ∈ s.options,
      ((sortBy (fun a b => decide (a.idx ≤ b.idx))
        (s.options.filter (fun o => o.poll_id == p.id))).map (fun o => o.id)).contains o.id =
      (o.poll_id == p.id) := by
    intro o ho
    rw [Bool.eq_iff_iff]
    constructor
    · intro hc
      rcases List.mem_map.mp (List.elem_iff.mp hc) with ⟨o3, ho3, hid⟩
      have ho3f := List.mem_filter.mp ((perm_sortBy _ _).mem_iff.mp ho3)
      have heq : o3 = o := List.inj_on_of_nodup_map hndo ho3f.1 ho hid
      rw [← heq]
      exact ho3f.2
    · intro hb
      refine List.elem_iff.mpr (List.mem_map_of_mem _ ?_)
      exact (perm_sortBy _ _).mem_iff.mpr (List.mem_filter.mpr ⟨ho, hb⟩)
  have hrows1 : (poll_option_counts s).filter (fun r =>
      match r.option_id with
      | some oid => ((sortBy (fun a b => decide (a.idx ≤ b.idx))
          (s.options.filter (fun o => o.poll_id == p.id))).map (fun o => o.id)).contains oid
      | none => false) =
      (s.options.filter (fun o => o.poll_id == p.id)).map (countRowOf s) := by
    unfold poll_option_counts
    rw [List.filter_map]
    refine congrArg (List.map (countRowOf s)) ?_
    refine List.filter_congr ?_
    intro o ho
    exact hiff1 o ho
  have hget : ∀ o ∈ sortBy (fun a b => decide (a.idx ≤ b.idx))
      (s.options.filter (fun o => o.poll_id == p.id)),
      mapGet (buildCountsMap ((poll_option_counts s).filter (fun r =>
        match r.option_id with
        | some oid => ((sortBy (fun a b => decide (a.idx ≤ b.idx))
            (s.options.filter (fun o => o.poll_id == p.id))).map (fun o => o.id)).contains oid
        | none => false))) o.id = some (countVotesForOption s o.id) := by
    intro o ho
    rw [hrows1, buildCountsMap_eq]
    exact mapGet_foldl_buildStep_of_mem s _ [] o hndo1 hone1 ((perm_sortBy _ _).mem_iff.mp ho)
  have hpmem1 : p ∈ s.polls.filter (fun q => q.owner_id == u) :=
    List.mem_filter.mpr ⟨hp, by simp [howner]⟩
  have hpmem2 : p ∈ sortBy (fun a b => strLe b.created_at a.created_at)
      (s.polls.filter (fun q => q.owner_id == u)) :=
    (perm_sortBy _ _).mem_iff.mpr hpmem1
  have hnonempty : ¬((sortBy (fun a b => strLe b.created_at a.created_at)
      (s.polls.filter (fun q => q.owner_id == u))).isEmpty = true) := by
    rw [List.isEmpty_iff]
    exact List.ne_nil_of_mem hpmem2
  have hpinIds : p.id ∈ (sortBy (fun a b => strLe b.created_at a.created_at)
      (s.polls.filter (fun q => q.owner_id == u))).map (fun q => q.id) :=
    List.mem_map_of_mem _ hpmem2
  have hrows2 : (poll_option_counts s).filter (fun r =>
      match r.poll_id with
      | some pid => ((sortBy (fun a b => strLe b.created_at a.created_at)
          (s.polls.filter (fun q => q.owner_id == u))).map (fun q => q.id)).contains pid
      | none => false) =
      (s.options.filter (fun o =>
        ((sortBy (fun a b => strLe b.created_at a.created_at)
          (s.polls.filter (fun q => q.owner_id == u))).map (fun q => q.id)).contains
            o.poll_id)).map (countRowOf s) := by
    unfold poll_option_counts
    rw [List.filter_map]
    rfl
  have hff : (s.options.filter (fun o =>
      ((sortBy (fun a b => strLe b.created_at a.created_at)
        (s.polls.filter (fun q => q.owner_id == u))).map (fun q => q.id)).contains
          o.poll_id)).filter (fun o => o.poll_id == p.id) =
      s.options.filter (fun o => o.poll_id == p.id) := by
    rw [List.filter_filter]
    refine List.filter_congr ?_
    intro o ho
    by_cases hb : (o.poll_id == p.id) = true
    · have hpe : o.poll_id = p.id := by simpa using hb
      rw [hb, Bool.true_and, hpe]
      exact List.elem_iff.mpr hpinIds
    · have hbf : (o.poll_id == p.id) = false := by simpa using hb
      rw [hbf, Bool.false_and]
  have haccum : (mapGet (accumCountsMap ((poll_option_counts s).filter (fun r =>
      match r.poll_id with
      | some pid => ((sortBy (fun a b => strLe b.created_at a.created_at)
          (s.polls.filter (fun q => q.owner_id == u))).map (fun q => q.id)).contains pid
      | none => false))) p.id).getD 0 =
      ((s.options.filter (fun o => o.poll_id == p.id)).map
        (fun o => countVotesForOption s o.id)).sum := by
    rw [accumCountsMap_eq, mapGet_foldl_accumStep p.id hpid]
    rw [hrows2, sumCountsFor_map_countRowOf, hff]
    rw [show (mapGet [] p.id).getD 0 = (0 : Int) from rfl, zero_add]
  have hd : ∃ d, getPollById s false voteCheckFail false false viewer p.id = some d ∧
      sumOptionVotes d.options = d.totalVotes ∧
      d.totalVotes = ((s.options.filter (fun o => o.poll_id == p.id)).map
        (fun o => countVotesForOption s o.id)).sum := by
    unfold getPollById
    rw [hfilterP]
    refine ⟨_, rfl, ?_, ?_⟩
    · unfold sumOptionVotes
      dsimp only
      rw [List.map_map, foldl_add_int, zero_add]
      exact rfl
    · dsimp only
      rw [foldl_add_int, zero_add]
      have hmapf : (sortBy (fun a b => decide (a.idx ≤ b.idx))
          (s.options.filter (fun o => o.poll_id == p.id))).map
            (fun o => (mapGet (buildCountsMap ((poll_option_counts s).filter (fun r =>
              match r.option_id with
              | some oid => ((sortBy (fun a b => decide (a.idx ≤ b.idx))
                  (s.options.filter (fun o => o.poll_id == p.id))).map
                    (fun o => o.id)).contains oid
              | none => false))) o.id).getD 0) =
          (sortBy (fun a b => decide (a.idx ≤ b.idx))
            (s.options.filter (fun o => o.poll_id == p.id))).map
              (fun o => countVotesForOption s o.id) :=
        List.map_eq_map_iff.mpr (fun o ho => by rw [hget o ho]; rfl)
      rw [hmapf]
      exact ((perm_sortBy _ _).map _).sum_eq
  have he : ∃ e, (getPolls s false false false (some u)).find? (fun x => x.id == p.id) =
      some e ∧
      e.totalVotes = ((s.options.filter (fun o => o.poll_id == p.id)).map
        (fun o => countVotesForOption s o.id)).sum := by
    unfold getPolls
    dsimp only
    rw [if_neg hnonempty]
    refine ⟨_, find?_eq_some_of_unique _ _ _ (List.mem_map_of_mem _ hpmem2) (by simp) ?_, ?_⟩
    · intro x hx hxq
      rcases List.mem_map.mp hx with ⟨q, hq, rfl⟩
      have hqmem : q ∈ s.polls := (List.mem_filter.mp ((perm_sortBy _ _).mem_iff.mp hq)).1
      have hqid : q.id = p.id := by simpa using hxq
      have hqp : q = p := List.inj_on_of_nodup_map hndp hqmem hp hqid
      rw [hqp]
    · dsimp only
      exact haccum
  rcases hd with ⟨d, hd1, hd2, hd3⟩
  rcases he with ⟨e, he1, he2⟩
  exact ⟨d, e, hd1, he1, hd2, hd3.trans he2.symm⟩

/-- The demo store after two voters have voted on poll `p1`. -/
def demoStoreVoted : Store :=
  { demoStore with
    votes := [{ id := 0, poll_id := "p1", option_id := "o1", voter_uid := none,
                anon_fingerprint := some "V1" },
              { id := 1, poll_id := "p1", option_id := "o2", voter_uid := some "U2",
                anon_fingerprint := none }],
    nextVoteId := 2 }

/-- Witness for C4 on a store with two recorded votes. -/
theorem poll_total_consistency_witness :
    ((demoStoreVoted.polls.head? = some
        { id := "p1", question := "Lunch?", title := "Lunch?", description := none,
          created_at := "2024-01-01T00:00:00Z", owner_id := "U1" }) ∧
     ("p1" : String) ≠ "" ∧
     (demoStoreVoted.polls.map (fun q => q.id)).Nodup ∧
     (demoStoreVoted.options.map (fun o => o.id)).Nodup ∧
     (∀ o ∈ demoStoreVoted.options, o.id ≠ "")) ∧
    ∃ d e, getPollById demoStoreVoted false false false false none "p1" = some d ∧
      (getPolls demoStoreVoted false false false (some "U1")).find?
        (fun x => x.id == "p1") = some e ∧
      sumOptionVotes d.options = d.totalVotes ∧
      d.totalVotes = e.totalVotes :=
  ⟨⟨by decide, by decide, by decide, by decide, by decide⟩,
    poll_total_consistency demoStoreVoted
      { id := "p1", question := "Lunch?", title := "Lunch?", description := none,
        created_at := "2024-01-01T00:00:00Z", owner_id := "U1" }
      "U1" none false (by decide) (by decide) (by decide) (by decide) (by decide) (by decide)⟩

/-- Witness for C6: creating a three-option poll in the demo store. -/
theorem createPoll_order_preserved_witness :
    (specValidCreatePoll { question := " Lunch? ", options := ["Pizza", " Salad", "Tacos "] } =
        true ∧
     (∀ q ∈ demoStore.polls, q.id ≠ "p9") ∧
     (∀ o ∈ demoStore.options, o.poll_id ≠ "p9")) ∧
    ((createPoll demoStore (some "U1") false false "p9" "t1" (fun n => "o9" ++ toString n)
        { question := " Lunch? ", options := ["Pizza", " Salad", "Tacos "] }).1 =
      CreatePollOutcome.created "p9" ∧
     ((createPoll demoStore (some "U1") false false "p9" "t1" (fun n => "o9" ++ toString n)
        { question := " Lunch? ", options := ["Pizza", " Salad", "Tacos "] }).2.options.filter
          (fun o => o.poll_id == "p9")).map (fun o => o.idx) = List.range 3 ∧
     ∃ d, getPollById (createPoll demoStore (some "U1") false false "p9" "t1"
          (fun n => "o9" ++ toString n)
          { question := " Lunch? ", options := ["Pizza", " Salad", "Tacos "] }).2
          false false false false none "p9" = some d ∧
       d.options.map (fun o => o.text) =
         ["Pizza", " Salad", "Tacos "].map trimJS) :=
  ⟨⟨by decide, by decide, by decide⟩,
    createPoll_order_preserved demoStore "U1"
      { question := " Lunch? ", options := ["Pizza", " Salad", "Tacos "] }
      "p9" "t1" (fun n => "o9" ++ toString n) (by decide) (by decide) (by decide)⟩

end Polly
